import Mathlib

/-!
Verification development for the `tool-alchemist-mcp` repository
(`src/tool_alchemist_mcp/alchemist.py`).

Strings are modelled as lists of Unicode code points (`PyStr := List Nat`),
which matches Python's view of `str` as a sequence of code points.
Filesystem paths are modelled after `pathlib.PurePosixPath`: an
absolute-flag together with the list of non-empty, non-`"."` components.
The YAML documents handled by `add_tool_to_config` are modelled by the
inductive type `Yaml`, with Python `dict`s as insertion-ordered
association lists.
-/

/-- A Python string: a list of Unicode code points. -/
abbrev PyStr : Type := List Nat

instance {ε α : Type} [DecidableEq ε] [DecidableEq α] : DecidableEq (Except ε α) := fun
  | .error e, .error f => decidable_of_iff (e = f) (by simp)
  | .error _, .ok _ => isFalse (by simp)
  | .ok _, .error _ => isFalse (by simp)
  | .ok a, .ok b => decidable_of_iff (a = b) (by simp)

/-- Convert a Lean string literal into its code-point model. -/
def strOf (s : String) : PyStr := s.toList.map Char.toNat

/-- ASCII whitespace as recognised by Python's `str.strip` and by the
regex class `\s` on ASCII input: space, tab, newline, carriage return,
vertical tab, form feed. -/
def isPySpace (c : Nat) : Bool :=
  decide (c = 32 ∨ c = 9 ∨ c = 10 ∨ c = 13 ∨ c = 11 ∨ c = 12)

/-- Membership in the regex character class `[a-zA-Z0-9 _-]` used by
`validate_tool_name`. -/
def allowedCp (c : Nat) : Bool :=
  decide ((97 ≤ c ∧ c ≤ 122) ∨ (65 ≤ c ∧ c ≤ 90) ∨ (48 ≤ c ∧ c ≤ 57) ∨
    c = 32 ∨ c = 95 ∨ c = 45)

/-- Python `str.lower` on one code point (ASCII range, which is all the
allowed characters can contain). -/
def pyLower (c : Nat) : Nat := if 65 ≤ c ∧ c ≤ 90 then c + 32 else c

/-- Python `str.lower` on a whole string. -/
def pyLowerStr (s : PyStr) : PyStr := s.map pyLower

/-- Python `str.strip`: drop leading and trailing whitespace. -/
def pyStrip (s : PyStr) : PyStr :=
  ((s.dropWhile isPySpace).reverse.dropWhile isPySpace).reverse

/-- Worker for `pySubCollapse`; the flag records whether the previous
character belonged to a run of the pattern class (in which case the
replacement character has already been emitted for this run). -/
def collapseRunsAux (p : Nat → Bool) (r : Nat) : Bool → List Nat → List Nat
  | _, [] => []
  | inRun, c :: cs =>
    if p c then
      if inRun then collapseRunsAux p r true cs
      else r :: collapseRunsAux p r true cs
    else c :: collapseRunsAux p r false cs

/-- Model of `re.sub(r"[<class>]+", r, s)` where `<class>` is given by the
predicate `p` and the replacement is the single character `r`: every
maximal run of characters from the class is replaced by one copy of `r`. -/
def pySubCollapse (p : Nat → Bool) (r : Nat) (s : PyStr) : PyStr :=
  collapseRunsAux p r false s

/-- Character class `[\s_]` of `to_kebob_case`. -/
def kebabClass (c : Nat) : Bool := isPySpace c || decide (c = 95)

/-- Character class `[\s\-]` of `to_snake_case`. -/
def snakeClass (c : Nat) : Bool := isPySpace c || decide (c = 45)

/-- Model of `Alchemist.to_snake_case`:
`re.sub(r"[\s\-]+", "_", val.strip()).lower()`. -/
def to_snake_case (val : PyStr) : PyStr :=
  pyLowerStr (pySubCollapse snakeClass 95 (pyStrip val))

/-- Model of `Alchemist.to_kebob_case`:
`re.sub(r"[\s_]+", "-", val.strip()).lower()`. -/
def to_kebob_case (val : PyStr) : PyStr :=
  pyLowerStr (pySubCollapse kebabClass 45 (pyStrip val))

/-- The exception kinds the embedded operations can signal.  They are the
exception classes actually raised by `alchemist.py`: `ValidationError`,
`IOError` (which the code also raises on `yaml.YAMLError`), the built-in
`TypeError` (raised, uncaught, when the parsed config document is truthy
but not a mapping), `UVCommandNotFound`, and `subprocess.SubprocessError`. -/
inductive PyErr where
  | validationError
  | ioError
  | typeError
  | uvCommandNotFound
  | subprocessError
deriving DecidableEq

/-- Model of `re.match(r"^[a-zA-Z0-9 _-]+$", s)` being truthy.  In Python,
without `re.MULTILINE`, `$` matches at the end of the string *or just
before a newline at the end of the string*, so the pattern also accepts a
string of allowed characters followed by one final `"\n"` (code point 10). -/
def reFullMatchAllowed (s : PyStr) : Bool :=
  (!s.isEmpty && s.all allowedCp) ||
  (decide (s.getLast? = some 10) && !s.dropLast.isEmpty && s.dropLast.all allowedCp)

/-- Model of `Alchemist.validate_tool_name`: raises `ValidationError` when the name
is empty (falsy) or the regex does not match; otherwise returns `True`. -/
def validate_tool_name (name : PyStr) : Except PyErr Bool :=
  if name.isEmpty || !reFullMatchAllowed name then
    Except.error PyErr.validationError
  else
    Except.ok true

/-- A `pathlib.PurePosixPath`: absolute-flag plus parsed components. -/
structure PyPath where
  absolute : Bool
  parts : List PyStr
deriving DecidableEq

/-- Split a string at `/` (code point 47). -/
def splitSlashAux : List Nat → List Nat → List PyStr
  | acc, [] => [acc.reverse]
  | acc, c :: cs =>
    if c = 47 then acc.reverse :: splitSlashAux [] cs
    else splitSlashAux (c :: acc) cs

/-- The path components of one string argument, as `pathlib` parses it:
split at slashes, dropping empty components and sole-dot components. -/
def pathComponents (s : PyStr) : List PyStr :=
  (splitSlashAux [] s).filter (fun seg => !seg.isEmpty && decide (seg ≠ [46]))

/-- Model of `Path.joinpath` with a single string argument: an absolute argument
replaces the whole path, otherwise the argument's components are appended. -/
def joinpath (p : PyPath) (s : PyStr) : PyPath :=
  if s.head? = some 47 then ⟨true, pathComponents s⟩
  else ⟨p.absolute, p.parts ++ pathComponents s⟩

/-- Model of `Path.parent`: drop the last component (no-op on `"."` and on the root). -/
def parentPath (p : PyPath) : PyPath := ⟨p.absolute, p.parts.dropLast⟩

/-- Join components with `/` for `str(path)`. -/
def intercalateSlash : List PyStr → PyStr
  | [] => []
  | [seg] => seg
  | seg :: seg2 :: rest => seg ++ 47 :: intercalateSlash (seg2 :: rest)

/-- Rendering of `str()` of a `PurePosixPath` (the empty relative path prints as `"."`). -/
def pyPathStr (p : PyPath) : PyStr :=
  if p.absolute then 47 :: intercalateSlash p.parts
  else if p.parts.isEmpty then [46] else intercalateSlash p.parts

/-- The module constant `SERVER_FILE_NAME = "server.py"`. -/
def SERVER_FILE_NAME : PyStr := strOf "server.py"

/-- Model of `Alchemist.get_tool_root_path`: `self.data_path.joinpath(to_kebob_case(name))`. -/
def get_tool_root_path (data_path : PyPath) (name : PyStr) : PyPath :=
  joinpath data_path (to_kebob_case name)

/-- Model of `Alchemist.get_tool_server_path`:
`get_tool_root_path(name).joinpath("src", to_snake_case(name), SERVER_FILE_NAME)`. -/
def get_tool_server_path (data_path : PyPath) (name : PyStr) : PyPath :=
  joinpath (joinpath (joinpath (get_tool_root_path data_path name) (strOf "src"))
    (to_snake_case name)) SERVER_FILE_NAME

/-- A YAML value as returned by `yaml.safe_load`.  Python `dict`s are
modelled as insertion-ordered association lists. -/
inductive Yaml where
  | str : PyStr → Yaml
  | int : Int → Yaml
  | bool : Bool → Yaml
  | list : List Yaml → Yaml
  | map : List (PyStr × Yaml) → Yaml

/-- First-match association-list lookup, i.e. `d[k]` / `k in d` on a
Python `dict` (whose keys are unique). -/
def alookup : List (PyStr × Yaml) → PyStr → Option Yaml
  | [], _ => none
  | (k', v) :: rest, k => if k' = k then some v else alookup rest k

/-- Python `d[k] = v` on a `dict`: overwrite in place when the key is
present, append otherwise. -/
def aset (m : List (PyStr × Yaml)) (k : PyStr) (v : Yaml) : List (PyStr × Yaml) :=
  if m.any (fun p => decide (p.1 = k)) then
    m.map (fun p => if p.1 = k then (k, v) else p)
  else m ++ [(k, v)]

/-- Python truthiness of the value returned by `yaml.safe_load` (`None`
for an empty document is falsy, as are empty strings/lists/dicts, `0`,
and `False`). -/
def truthy : Option Yaml → Bool
  | none => false
  | some (.str s) => !s.isEmpty
  | some (.int n) => decide (n ≠ 0)
  | some (.bool b) => b
  | some (.list l) => !l.isEmpty
  | some (.map m) => !m.isEmpty

/-- The outcome of `open(config_path, "r")` followed by
`yaml.safe_load(file)`: the open/read can raise `IOError` (e.g. the file
does not exist), parsing can raise `yaml.YAMLError`, or a document is
produced (`none` when the file is empty and `safe_load` returns `None`). -/
inductive ReadResult where
  | ioError
  | yamlError
  | doc : Option Yaml → ReadResult

/-- The key `"extensions"` of the Goose config document. -/
def extensionsKey : PyStr := strOf "extensions"

/-- The `new_extension` dict built by `add_tool_to_config`. -/
def new_extension (tool_path : PyPath) (tool_name_kebab : PyStr) : Yaml :=
  Yaml.map
    [(strOf "args", Yaml.list [Yaml.str (strOf "--from"),
        Yaml.str (pyPathStr tool_path), Yaml.str tool_name_kebab]),
     (strOf "cmd", Yaml.str (strOf "uvx")),
     (strOf "enabled", Yaml.bool true),
     (strOf "envs", Yaml.map []),
     (strOf "name", Yaml.str tool_name_kebab),
     (strOf "type", Yaml.str (strOf "stdio"))]

/-- Model of `Alchemist.add_tool_to_config`.  The filesystem interaction is passed
in explicitly: `goose_read` is the outcome of opening and parsing the
config file, and `writeFails` tells whether opening the file for writing
raises `IOError`.  The returned list is the sequence of documents written
to the config file (empty on every error path, so an error performs no
write).

Control flow mirrored from the source: the name is validated, the file is
read, a falsy document is replaced by `{"extensions": {}}` (the `or`
default), a missing `"extensions"` key is inserted, the descriptor is
upserted, and the document is dumped back.  `IOError` and
`yaml.YAMLError` are caught and re-raised as `IOError`; a truthy
non-mapping document, or an `extensions` value that is not a mapping,
makes the item access/assignment raise an uncaught `TypeError`. -/
def add_tool_to_config (data_path : PyPath) (goose_read : ReadResult)
    (writeFails : Bool) (name : PyStr) : Except PyErr Unit × List Yaml :=
  match validate_tool_name name with
  | .error e => (.error e, [])
  | .ok _ =>
    let tool_path := get_tool_root_path data_path name
    let tool_name_kebab := to_kebob_case name
    match goose_read with
    | .ioError => (.error .ioError, [])
    | .yamlError => (.error .ioError, [])
    | .doc d =>
      match (if truthy d then d else some (Yaml.map [(extensionsKey, Yaml.map [])])) with
      | some (Yaml.map m) =>
        let m1 := if (alookup m extensionsKey).isSome then m
          else aset m extensionsKey (Yaml.map [])
        match alookup m1 extensionsKey with
        | some (Yaml.map ext) =>
          let final := Yaml.map (aset m1 extensionsKey
            (Yaml.map (aset ext tool_name_kebab (new_extension tool_path tool_name_kebab))))
          if writeFails then (.error .ioError, []) else (.ok (), [final])
        | _ => (.error .typeError, [])
      | _ => (.error .typeError, [])

/-- Look up the descriptor registered for `kebab` inside a written config
document: the value under `config["extensions"][kebab]`. -/
def extensionEntry (cfg : Yaml) (kebab : PyStr) : Option Yaml :=
  match cfg with
  | Yaml.map m =>
    match alookup m extensionsKey with
    | some (Yaml.map ext) => alookup ext kebab
    | _ => none
  | _ => none

/-- One observable filesystem/process side effect of `create_new_tool`. -/
inductive FsEffect where
  | mkdirParents : PyPath → FsEffect
  | runCommand : List PyStr → FsEffect
  | writeFile : PyPath → FsEffect

/-- Model of `Alchemist.create_new_tool`.  External conditions are passed in
explicitly: `uvInstalled` is whether `shutil.which("uv")` succeeds,
`cmdsOk` whether the two `uv` subprocesses exit successfully, `renderOk`
whether the Jinja template lookup/rendering succeeds (a failure there is
re-raised as `IOError`).  The returned list is the ordered trace of
filesystem/process side effects actually performed.  When the first `uv`
command fails, the parent directory has already been created and the
command spawned; a render failure leaves the `uv`-created skeleton behind
(no rollback, matching the source). -/
def create_new_tool (data_path : PyPath) (uvInstalled cmdsOk renderOk : Bool)
    (name : PyStr) (description : Option PyStr) : Except PyErr PyPath × List FsEffect :=
  match validate_tool_name name with
  | .error e => (.error e, [])
  | .ok _ =>
    if uvInstalled then
      let name_in_kebab_case := to_kebob_case name
      let name_in_snake_case := to_snake_case name
      let tool_path := joinpath data_path name_in_kebab_case
      let descArg := match description with
        | some d => if d.isEmpty then name else d
        | none => name
      let initCmd := [strOf "uv", strOf "init", strOf "--package",
        strOf "--description", descArg, pyPathStr tool_path]
      let addCmd := [strOf "uv", strOf "add", strOf "mcp", strOf "--project",
        pyPathStr tool_path]
      if cmdsOk then
        let server_file_path := joinpath (joinpath (joinpath tool_path (strOf "src"))
          name_in_snake_case) SERVER_FILE_NAME
        let init_file_path := joinpath (joinpath (joinpath tool_path (strOf "src"))
          name_in_snake_case) (strOf "__init__.py")
        let uvEffects := [FsEffect.mkdirParents (parentPath tool_path),
          FsEffect.runCommand initCmd, FsEffect.runCommand addCmd]
        if renderOk then
          (.ok tool_path, uvEffects ++ [FsEffect.mkdirParents (parentPath server_file_path),
            FsEffect.writeFile server_file_path, FsEffect.writeFile init_file_path])
        else (.error .ioError, uvEffects)
      else (.error .subprocessError,
        [FsEffect.mkdirParents (parentPath tool_path), FsEffect.runCommand initCmd])
    else (.error .uvCommandNotFound, [])

/-- A concrete path used for witnesses and counterexamples. -/
def examplePath : PyPath := ⟨false, []⟩

example : to_kebob_case (strOf "My Tool") = strOf "my-tool" := by decide
example : to_snake_case (strOf "My Tool") = strOf "my_tool" := by decide
example : to_kebob_case (strOf "  A__b  c-D ") = strOf "a-b-c-d" := by decide
example : validate_tool_name (strOf "Valid Name 123") = Except.ok true := by decide
example : validate_tool_name (strOf "name@x") = Except.error PyErr.validationError := by decide
example : validate_tool_name (strOf "") = Except.error PyErr.validationError := by decide
example : validate_tool_name [97, 10] = Except.ok true := by decide

/-! ### Helper lemmas about the string operations -/

theorem mem_collapseRunsAux {p : Nat → Bool} {r : Nat} {b : Bool} {l : List Nat} {c : Nat}
    (h : c ∈ collapseRunsAux p r b l) : c = r ∨ (p c = false ∧ c ∈ l) := by
  induction l generalizing b with
  | nil => simp [collapseRunsAux] at h
  | cons d ds ih =>
    by_cases hd : p d
    · cases b with
      | true =>
        simp only [collapseRunsAux, hd, if_true] at h
        rcases ih h with h' | h'
        · exact Or.inl h'
        · exact Or.inr ⟨h'.1, List.mem_cons_of_mem _ h'.2⟩
      | false =>
        simp only [collapseRunsAux, hd, if_true] at h
        rcases List.mem_cons.mp h with rfl | h'
        · exact Or.inl rfl
        · rcases ih h' with h'' | h''
          · exact Or.inl h''
          · exact Or.inr ⟨h''.1, List.mem_cons_of_mem _ h''.2⟩
    · simp only [collapseRunsAux, hd, if_false, Bool.false_eq_true] at h
      rcases List.mem_cons.mp h with rfl | h'
      · exact Or.inr ⟨by simpa using hd, List.mem_cons_self _ _⟩
      · rcases ih h' with h'' | h''
        · exact Or.inl h''
        · exact Or.inr ⟨h''.1, List.mem_cons_of_mem _ h''.2⟩

theorem collapseRunsAux_eq_self {p : Nat → Bool} {r : Nat} {b : Bool} {l : List Nat}
    (h : ∀ c ∈ l, p c = false) : collapseRunsAux p r b l = l := by
  induction l generalizing b with
  | nil => rfl
  | cons d ds ih =>
    have hd : p d = false := h d (List.mem_cons_self _ _)
    simp only [collapseRunsAux, hd, Bool.false_eq_true, if_false]
    exact congrArg (d :: ·) (ih fun c hc => h c (List.mem_cons_of_mem _ hc))

theorem dropWhile_eq_self_of_not {p : Nat → Bool} {l : List Nat}
    (h : ∀ c ∈ l, p c = false) : l.dropWhile p = l := by
  cases l with
  | nil => rfl
  | cons d ds => simp [List.dropWhile_cons, h d (List.mem_cons_self _ _)]

theorem pyStrip_eq_self {l : PyStr} (h : ∀ c ∈ l, isPySpace c = false) :
    pyStrip l = l := by
  unfold pyStrip
  rw [dropWhile_eq_self_of_not h, dropWhile_eq_self_of_not, List.reverse_reverse]
  intro c hc
  exact h c (List.mem_reverse.mp hc)

theorem mem_pyStrip {l : PyStr} {c : Nat} (h : c ∈ pyStrip l) : c ∈ l := by
  unfold pyStrip at h
  have h1 := List.mem_reverse.mp h
  have h2 := (List.dropWhile_sublist _).mem h1
  have h3 := List.mem_reverse.mp h2
  exact (List.dropWhile_sublist _).mem h3

theorem map_eq_self_of_fixed {f : Nat → Nat} {l : List Nat}
    (h : ∀ c ∈ l, f c = c) : l.map f = l := by
  induction l with
  | nil => rfl
  | cons d ds ih =>
    rw [List.map_cons, h d (List.mem_cons_self _ _),
      ih fun c hc => h c (List.mem_cons_of_mem _ hc)]

/-- Characters produced by either case conversion are stable: for any
character outside the collapsed class, its lowerccasing is outside the
class, is not whitespace, and is a fixed point of lowercasing.  This holds
for the kebab class (whitespace + underscore). -/
theorem kebabClass_lower_stable {c : Nat} (h : kebabClass c = false) :
    kebabClass (pyLower c) = false ∧ isPySpace (pyLower c) = false ∧
      pyLower (pyLower c) = pyLower c := by
  simp only [kebabClass, isPySpace, pyLower, Bool.or_eq_false_iff,
    decide_eq_false_iff_not] at h ⊢
  rcases h with ⟨hs, hu⟩
  by_cases hup : 65 ≤ c ∧ c ≤ 90
  · rw [if_pos hup]
    refine ⟨⟨by omega, by omega⟩, by omega, ?_⟩
    rw [if_neg (by omega)]
  · rw [if_neg hup]
    refine ⟨⟨hs, hu⟩, hs, ?_⟩
    rw [if_neg hup]

/-- The same stability for the snake class (whitespace + hyphen). -/
theorem snakeClass_lower_stable {c : Nat} (h : snakeClass c = false) :
    snakeClass (pyLower c) = false ∧ isPySpace (pyLower c) = false ∧
      pyLower (pyLower c) = pyLower c := by
  simp only [snakeClass, isPySpace, pyLower, Bool.or_eq_false_iff,
    decide_eq_false_iff_not] at h ⊢
  rcases h with ⟨hs, hh⟩
  by_cases hup : 65 ≤ c ∧ c ≤ 90
  · rw [if_pos hup]
    refine ⟨⟨by omega, by omega⟩, by omega, ?_⟩
    rw [if_neg (by omega)]
  · rw [if_neg hup]
    refine ⟨⟨hs, hh⟩, hs, ?_⟩
    rw [if_neg hup]

/-- A case conversion of the shape shared by `to_snake_case` and
`to_kebob_case` is idempotent, provided the replacement character and all
characters it can emit are stable in the above sense. -/
theorem caseConv_idem (p : Nat → Bool) (r : Nat)
    (hr : p r = false ∧ isPySpace r = false ∧ pyLower r = r)
    (hchar : ∀ c, p c = false →
      p (pyLower c) = false ∧ isPySpace (pyLower c) = false ∧
        pyLower (pyLower c) = pyLower c)
    (s : PyStr) :
    pyLowerStr (pySubCollapse p r (pyStrip (pyLowerStr (pySubCollapse p r (pyStrip s))))) =
      pyLowerStr (pySubCollapse p r (pyStrip s)) := by
  set t := pyLowerStr (pySubCollapse p r (pyStrip s)) with ht
  have stable : ∀ c ∈ t, p c = false ∧ isPySpace c = false ∧ pyLower c = c := by
    intro c hc
    rw [ht] at hc
    obtain ⟨d, hd, rfl⟩ := List.mem_map.mp hc
    rcases mem_collapseRunsAux hd with rfl | ⟨hdp, _⟩
    · rw [hr.2.2]
      exact hr
    · exact hchar d hdp
  rw [pyStrip_eq_self fun c hc => (stable c hc).2.1,
    show pySubCollapse p r t = t from collapseRunsAux_eq_self fun c hc => (stable c hc).1,
    show pyLowerStr t = t from map_eq_self_of_fixed fun c hc => (stable c hc).2.2]

/-! ### Helper lemmas about the association-list model of `dict` -/

theorem alookup_aset_self (m : List (PyStr × Yaml)) (k : PyStr) (v : Yaml) :
    alookup (aset m k v) k = some v := by
  induction m with
  | nil => simp [aset, alookup]
  | cons p rest ih =>
    obtain ⟨k', w⟩ := p
    by_cases hk : k' = k
    · subst hk
      simp [aset, alookup]
    · by_cases hr : rest.any (fun p => decide (p.1 = k))
      · have ih' := ih
        rw [aset, if_pos hr] at ih'
        rw [aset, if_pos (show (((k', w) :: rest).any fun p => decide (p.1 = k)) = true by
          simp [hk, hr])]
        rw [List.map_cons, if_neg (show ¬((k', w).1 = k) from hk)]
        simp only [alookup, if_neg hk]
        exact ih'
      · have hrf : (rest.any fun p => decide (p.1 = k)) = false :=
          Bool.eq_false_iff.mpr hr
        have ih' := ih
        rw [aset, if_neg (by simp [hrf])] at ih'
        rw [aset, if_neg (show ¬(((k', w) :: rest).any fun p => decide (p.1 = k)) = true by
          simp [hk, hrf])]
        simp only [List.cons_append, alookup, if_neg hk]
        exact ih'

/-! ### Claim theorems -/

/-- C8: for every string matching the allowed pattern `[a-zA-Z0-9 _-]+`
(non-empty, all characters allowed), `to_kebob_case` and `to_snake_case`
are idempotent: applying each twice yields the same result as once. -/
theorem c8_case_conversions_idempotent (s : PyStr)
    (h : s ≠ [] ∧ s.all allowedCp = true) :
    to_kebob_case (to_kebob_case s) = to_kebob_case s ∧
      to_snake_case (to_snake_case s) = to_snake_case s :=
  ⟨caseConv_idem kebabClass 45 (by decide) (fun _ hc => kebabClass_lower_stable hc) s,
   caseConv_idem snakeClass 95 (by decide) (fun _ hc => snakeClass_lower_stable hc) s⟩

theorem c8_case_conversions_idempotent_witness :
    (strOf "My_ Tool-1" ≠ [] ∧ (strOf "My_ Tool-1").all allowedCp = true) ∧
      (to_kebob_case (to_kebob_case (strOf "My_ Tool-1")) = to_kebob_case (strOf "My_ Tool-1") ∧
        to_snake_case (to_snake_case (strOf "My_ Tool-1")) = to_snake_case (strOf "My_ Tool-1")) :=
  ⟨by decide, c8_case_conversions_idempotent (strOf "My_ Tool-1") (by decide)⟩

/-- C7: path derivation is the fixed composition of the name conversions
and is performed with no filesystem access: for every data root,
`get_tool_root_path(dataRoot, "My Tool")` is `dataRoot/"my-tool"` and
`get_tool_server_path(dataRoot, "My Tool")` is
`dataRoot/"my-tool"/"src"/"my_tool"/"server.py"`. -/
theorem c7_path_derivation (d : PyPath) :
    get_tool_root_path d (strOf "My Tool") = joinpath d (strOf "my-tool") ∧
      get_tool_server_path d (strOf "My Tool") =
        joinpath (joinpath (joinpath (joinpath d (strOf "my-tool")) (strOf "src"))
          (strOf "my_tool")) (strOf "server.py") := by
  have hk : to_kebob_case (strOf "My Tool") = strOf "my-tool" := by decide
  have hs : to_snake_case (strOf "My Tool") = strOf "my_tool" := by decide
  constructor
  · rw [get_tool_root_path, hk]
  · rw [get_tool_server_path, get_tool_root_path, hk, hs]
    rfl

/-- C10: `get_tool_root_path` and `get_tool_server_path` perform no
validation and are total: for the empty name the root path is the data
root itself (joining the empty kebab form leaves the path unchanged), and
a name with disallowed characters such as `"A@ B"` is still converted and
joined without any failure. -/
theorem c10_paths_total_no_validation (d : PyPath) :
    get_tool_root_path d [] = d ∧
      get_tool_server_path d [] = joinpath (joinpath d (strOf "src")) (strOf "server.py") ∧
      get_tool_root_path d (strOf "A@ B") = joinpath d (strOf "a@-b") := by
  have hempty : ∀ q : PyPath, joinpath q [] = q := by
    intro q
    obtain ⟨a, ps⟩ := q
    simp [joinpath, pathComponents, splitSlashAux]
  refine ⟨?_, ?_, ?_⟩
  · rw [get_tool_root_path, show to_kebob_case [] = ([] : PyStr) from rfl]
    exact hempty _
  · rw [get_tool_server_path, get_tool_root_path,
      show to_kebob_case [] = ([] : PyStr) from rfl,
      show to_snake_case [] = ([] : PyStr) from rfl]
    simp only [hempty]
    rfl
  · rw [get_tool_root_path, show to_kebob_case (strOf "A@ B") = strOf "a@-b" from by decide]

/-- C6: for every valid tool name, when the `uv` executable is not
resolvable on the search path, `create_new_tool` fails with
`UVCommandNotFound` and performs zero filesystem side effects: its effect
trace is empty, so no directory is created and no file is written. -/
theorem c6_uv_missing_no_writes (dp : PyPath) (cmdsOk renderOk : Bool) (name : PyStr)
    (desc : Option PyStr) (h : validate_tool_name name = Except.ok true) :
    create_new_tool dp false cmdsOk renderOk name desc =
      (Except.error PyErr.uvCommandNotFound, []) := by
  unfold create_new_tool
  rw [h]
  rfl

theorem c6_uv_missing_no_writes_witness :
    validate_tool_name (strOf "My Tool") = Except.ok true ∧
      create_new_tool examplePath false true true (strOf "My Tool") none =
        (Except.error PyErr.uvCommandNotFound, []) :=
  ⟨by decide, c6_uv_missing_no_writes examplePath true true (strOf "My Tool") none (by decide)⟩

/-- C9: for a valid name, when the config file does not exist (the read
raises `IOError`), `add_tool_to_config` fails with `IOError` and writes
nothing: its write trace is empty, so the file is not created. -/
theorem c9_missing_config_file_ioerror (dp : PyPath) (wf : Bool) (name : PyStr)
    (h : validate_tool_name name = Except.ok true) :
    add_tool_to_config dp .ioError wf name = (Except.error PyErr.ioError, []) := by
  unfold add_tool_to_config
  rw [h]

theorem c9_missing_config_file_ioerror_witness :
    validate_tool_name (strOf "My Tool") = Except.ok true ∧
      add_tool_to_config examplePath .ioError false (strOf "My Tool") =
        (Except.error PyErr.ioError, []) :=
  ⟨by decide, c9_missing_config_file_ioerror examplePath false (strOf "My Tool") (by decide)⟩

/-- C1 counterexample: the two-character string `"a\n"` (code points
`[97, 10]`) contains the newline character, which is outside
`[A-Za-z0-9 _-]`, yet `validate_tool_name` accepts it and returns `True`,
because Python's `$` anchor also matches just before a newline at the end
of the string.  So validation does *not* raise on every string containing
a disallowed character. -/
theorem c1_counterexample :
    validate_tool_name [97, 10] = Except.ok true ∧
      (10 : Nat) ∈ ([97, 10] : PyStr) ∧ allowedCp 10 = false := by
  decide

/-- Characterization of the embedded `re.match` check: the pattern
`^[a-zA-Z0-9 _-]+$` matches exactly the non-empty all-allowed strings and
the non-empty all-allowed strings followed by one trailing newline. -/
theorem reFullMatchAllowed_iff (s : PyStr) :
    reFullMatchAllowed s = true ↔
      ((s ≠ [] ∧ ∀ c ∈ s, allowedCp c = true) ∨
       (∃ t, s = t ++ [10] ∧ t ≠ [] ∧ ∀ c ∈ t, allowedCp c = true)) := by
  unfold reFullMatchAllowed
  constructor
  · intro h
    rcases Bool.or_eq_true_iff.mp h with h1 | h1
    · obtain ⟨hne, hall⟩ := Bool.and_eq_true_iff.mp h1
      refine Or.inl ⟨?_, List.all_eq_true.mp hall⟩
      intro hc
      rw [hc] at hne
      exact absurd hne (by simp)
    · obtain ⟨h2, hall⟩ := Bool.and_eq_true_iff.mp h1
      obtain ⟨hlast, hne⟩ := Bool.and_eq_true_iff.mp h2
      have hl : s.getLast? = some 10 := of_decide_eq_true hlast
      obtain ⟨t, rfl⟩ := List.getLast?_eq_some_iff.mp hl
      rw [List.dropLast_concat] at hne hall
      refine Or.inr ⟨t, rfl, ?_, List.all_eq_true.mp hall⟩
      intro hc
      rw [hc] at hne
      exact absurd hne (by simp)
  · intro h
    rcases h with ⟨hne, hall⟩ | ⟨t, rfl, hne, hall⟩
    · apply Bool.or_eq_true_iff.mpr
      left
      refine Bool.and_eq_true_iff.mpr ⟨?_, List.all_eq_true.mpr hall⟩
      simp [List.isEmpty_iff, hne]
    · apply Bool.or_eq_true_iff.mpr
      right
      refine Bool.and_eq_true_iff.mpr ⟨Bool.and_eq_true_iff.mpr ⟨?_, ?_⟩, ?_⟩
      · simp [List.getLast?_concat]
      · rw [List.dropLast_concat]
        simp [List.isEmpty_iff, hne]
      · rw [List.dropLast_concat]
        exact List.all_eq_true.mpr hall

/-- C1 amended: `validate_tool_name` succeeds (returning `True`) exactly
on the non-empty strings composed solely of characters in
`[A-Za-z0-9 _-]`, *and additionally* on any such string followed by one
trailing newline; on every other string (including the empty string) it
raises `ValidationError`. -/
theorem c1_validate_characterization (name : PyStr) :
    (validate_tool_name name = Except.ok true ↔
      ((name ≠ [] ∧ ∀ c ∈ name, allowedCp c = true) ∨
       (∃ s, name = s ++ [10] ∧ s ≠ [] ∧ ∀ c ∈ s, allowedCp c = true))) ∧
    (validate_tool_name name = Except.ok true ∨
      validate_tool_name name = Except.error PyErr.validationError) := by
  have hsplit : ∀ c : Bool,
      ((if c = true then (Except.error PyErr.validationError : Except PyErr Bool)
        else Except.ok true) = Except.ok true) ↔ c = false := by
    intro c
    cases c <;> simp
  constructor
  · unfold validate_tool_name
    rw [hsplit, Bool.or_eq_false_iff]
    constructor
    · rintro ⟨_, hnm⟩
      exact (reFullMatchAllowed_iff name).mp (by simpa using hnm)
    · intro h
      have hm := (reFullMatchAllowed_iff name).mpr h
      have hne : name ≠ [] := by
        rcases h with ⟨hne, _⟩ | ⟨t, rfl, _, _⟩
        · exact hne
        · simp
      exact ⟨by simp [List.isEmpty_iff, hne], by simp [hm]⟩
  · unfold validate_tool_name
    by_cases hcond : (name.isEmpty || !reFullMatchAllowed name) = true
    · rw [if_pos hcond]
      exact Or.inr rfl
    · rw [if_neg hcond]
      exact Or.inl rfl

/-- Any error returned by `validate_tool_name` is `ValidationError`. -/
theorem validate_tool_name_error {name : PyStr} {e : PyErr}
    (h : validate_tool_name name = Except.error e) : e = PyErr.validationError := by
  unfold validate_tool_name at h
  split at h
  · injection h with h'
    exact h'.symm
  · exact absurd h (by simp)

/-- Registration against an empty config document (parsed as `None`)
computes to a successful write of the one-extension document. -/
theorem add_tool_to_config_doc_none (dp : PyPath) (name : PyStr)
    (hv : validate_tool_name name = Except.ok true) :
    add_tool_to_config dp (.doc none) false name =
      (Except.ok (), [Yaml.map [(extensionsKey, Yaml.map [(to_kebob_case name,
        new_extension (get_tool_root_path dp name) (to_kebob_case name))])]]) := by
  simp only [add_tool_to_config, hv]
  simp [truthy, alookup, aset]

/-- C3: for a valid name, when the config file exists but its document is
empty (parsed as `None`), or the parsed mapping lacks an `extensions`
key, `add_tool_to_config` does not fail: it proceeds as with
`{extensions: {}}` and registers the tool's descriptor under that key. -/
theorem c3_empty_or_missing_extensions_tolerated (dp : PyPath) (name : PyStr)
    (m : List (PyStr × Yaml))
    (hv : validate_tool_name name = Except.ok true)
    (hm : alookup m extensionsKey = none) :
    (∃ cfg, add_tool_to_config dp (.doc none) false name = (Except.ok (), [cfg]) ∧
      extensionEntry cfg (to_kebob_case name) =
        some (new_extension (get_tool_root_path dp name) (to_kebob_case name))) ∧
    (∃ cfg, add_tool_to_config dp (.doc (some (Yaml.map m))) false name =
        (Except.ok (), [cfg]) ∧
      extensionEntry cfg (to_kebob_case name) =
        some (new_extension (get_tool_root_path dp name) (to_kebob_case name))) := by
  constructor
  · refine ⟨_, add_tool_to_config_doc_none dp name hv, ?_⟩
    simp [extensionEntry, alookup]
  · rcases m with _ | ⟨p, rest⟩
    · refine ⟨Yaml.map [(extensionsKey, Yaml.map [(to_kebob_case name,
        new_extension (get_tool_root_path dp name) (to_kebob_case name))])], ?_, ?_⟩
      · simp only [add_tool_to_config, hv]
        simp [truthy, alookup, aset]
      · simp [extensionEntry, alookup]
    · refine ⟨Yaml.map (aset (aset (p :: rest) extensionsKey (Yaml.map []))
        extensionsKey (Yaml.map [(to_kebob_case name,
          new_extension (get_tool_root_path dp name) (to_kebob_case name))])), ?_, ?_⟩
      · simp only [add_tool_to_config, hv]
        simp only [truthy, List.isEmpty_cons, Bool.not_false, if_true, hm,
          Option.isSome_none, Bool.false_eq_true, if_false, alookup_aset_self]
        simp [aset]
      · simp only [extensionEntry, alookup_aset_self]
        simp [alookup]

theorem c3_empty_or_missing_extensions_tolerated_witness :
    ∃ cfg, add_tool_to_config examplePath (.doc none) false (strOf "My Tool") =
        (Except.ok (), [cfg]) ∧
      extensionEntry cfg (to_kebob_case (strOf "My Tool")) =
        some (new_extension (get_tool_root_path examplePath (strOf "My Tool"))
          (to_kebob_case (strOf "My Tool"))) :=
  (c3_empty_or_missing_extensions_tolerated examplePath (strOf "My Tool")
    [(strOf "other", Yaml.int 1)] (by decide) rfl).1

/-- Looking up the freshly upserted descriptor in the written document. -/
theorem extensionEntry_aset (m ext : List (PyStr × Yaml)) (kb : PyStr) (d : Yaml) :
    extensionEntry (Yaml.map (aset m extensionsKey (Yaml.map (aset ext kb d)))) kb =
      some d := by
  have h1 : alookup (aset m extensionsKey (Yaml.map (aset ext kb d))) extensionsKey =
      some (Yaml.map (aset ext kb d)) := alookup_aset_self _ _ _
  change (match alookup (aset m extensionsKey (Yaml.map (aset ext kb d)))
      extensionsKey with
    | some (Yaml.map e) => alookup e kb
    | _ => none) = some d
  rw [h1]
  exact alookup_aset_self _ _ _

/-- C4: for every valid tool name, whatever the read outcome, a successful
registration writes a document whose `extensions[kebabName]` descriptor
has invocation arguments exactly `["--from", str(toolRoot), kebabName]`,
command the fixed launcher `"uvx"`, `enabled = true`, an empty
environment mapping, declared name equal to the kebab name, and transport
type the fixed constant `"stdio"`. -/
theorem c4_registered_descriptor_fields (dp : PyPath) (rd : ReadResult) (wf : Bool)
    (name : PyStr) (cfg : Yaml)
    (hv : validate_tool_name name = Except.ok true)
    (hok : add_tool_to_config dp rd wf name = (Except.ok (), [cfg])) :
    extensionEntry cfg (to_kebob_case name) = some (Yaml.map
      [(strOf "args", Yaml.list [Yaml.str (strOf "--from"),
          Yaml.str (pyPathStr (get_tool_root_path dp name)),
          Yaml.str (to_kebob_case name)]),
       (strOf "cmd", Yaml.str (strOf "uvx")),
       (strOf "enabled", Yaml.bool true),
       (strOf "envs", Yaml.map []),
       (strOf "name", Yaml.str (to_kebob_case name)),
       (strOf "type", Yaml.str (strOf "stdio"))]) := by
  rcases rd with _ | _ | d
  · simp [add_tool_to_config, hv] at hok
  · simp [add_tool_to_config, hv] at hok
  · simp only [add_tool_to_config, hv] at hok
    split at hok
    · split at hok
      · split at hok
        · simp at hok
        · rw [Prod.mk.injEq] at hok
          obtain ⟨-, hok2⟩ := hok
          rw [List.cons.injEq] at hok2
          obtain ⟨hcfg, -⟩ := hok2
          subst hcfg
          exact extensionEntry_aset _ _ _ _
      · simp at hok
    · simp at hok

theorem c4_registered_descriptor_fields_witness :
    extensionEntry (Yaml.map [(extensionsKey, Yaml.map [(to_kebob_case (strOf "a"),
        new_extension (get_tool_root_path examplePath (strOf "a"))
          (to_kebob_case (strOf "a")))])])
      (to_kebob_case (strOf "a")) = some (Yaml.map
      [(strOf "args", Yaml.list [Yaml.str (strOf "--from"),
          Yaml.str (pyPathStr (get_tool_root_path examplePath (strOf "a"))),
          Yaml.str (to_kebob_case (strOf "a"))]),
       (strOf "cmd", Yaml.str (strOf "uvx")),
       (strOf "enabled", Yaml.bool true),
       (strOf "envs", Yaml.map []),
       (strOf "name", Yaml.str (to_kebob_case (strOf "a"))),
       (strOf "type", Yaml.str (strOf "stdio"))]) :=
  c4_registered_descriptor_fields examplePath (.doc none) false (strOf "a") _ (by decide)
    (add_tool_to_config_doc_none examplePath (strOf "a") (by decide))

/-- C5: for a valid name, registering it once into an initially empty
config and then a second time with a different data root overwrites
rather than duplicates: the final `extensions` mapping is exactly the
singleton holding the second registration's descriptor, so it has exactly
one entry for the kebab name, reflecting the second tool root. -/
theorem c5_reregistration_overwrites (dp1 dp2 : PyPath) (name : PyStr)
    (hv : validate_tool_name name = Except.ok true) :
    ∃ c1, add_tool_to_config dp1 (.doc none) false name = (Except.ok (), [c1]) ∧
      add_tool_to_config dp2 (.doc (some c1)) false name =
        (Except.ok (), [Yaml.map [(extensionsKey, Yaml.map [(to_kebob_case name,
          new_extension (get_tool_root_path dp2 name) (to_kebob_case name))])]]) ∧
      (List.filter (fun q => decide (q.1 = to_kebob_case name))
        [(to_kebob_case name,
          new_extension (get_tool_root_path dp2 name) (to_kebob_case name))]).length
        = 1 := by
  refine ⟨_, add_tool_to_config_doc_none dp1 name hv, ?_, ?_⟩
  · simp only [add_tool_to_config, hv]
    simp [truthy, alookup, aset]
  · simp

theorem c5_reregistration_overwrites_witness :
    ∃ c1, add_tool_to_config examplePath (.doc none) false (strOf "My Tool") =
        (Except.ok (), [c1]) ∧
      add_tool_to_config (PyPath.mk true [strOf "data"]) (.doc (some c1)) false
          (strOf "My Tool") =
        (Except.ok (), [Yaml.map [(extensionsKey, Yaml.map [(to_kebob_case (strOf "My Tool"),
          new_extension (get_tool_root_path (PyPath.mk true [strOf "data"]) (strOf "My Tool"))
            (to_kebob_case (strOf "My Tool")))])]]) ∧
      (List.filter (fun q => decide (q.1 = to_kebob_case (strOf "My Tool")))
        [(to_kebob_case (strOf "My Tool"),
          new_extension (get_tool_root_path (PyPath.mk true [strOf "data"]) (strOf "My Tool"))
            (to_kebob_case (strOf "My Tool")))]).length = 1 :=
  c5_reregistration_overwrites examplePath (PyPath.mk true [strOf "data"])
    (strOf "My Tool") (by decide)

/-- C2 counterexample: with a config document that parses to the truthy
non-mapping value `"hello"`, registering the valid name `"a"` fails with
the uncaught built-in `TypeError` — which is neither `ValidationError`
nor `IOError`, and no `ConfigParseError` exception class exists in the
code at all (YAML parse failures are re-raised as `IOError`). -/
theorem c2_counterexample :
    (add_tool_to_config examplePath (.doc (some (Yaml.str (strOf "hello")))) false
      (strOf "a")).1 = Except.error PyErr.typeError ∧
      PyErr.typeError ≠ PyErr.validationError ∧ PyErr.typeError ≠ PyErr.ioError := by
  decide

/-- C2 amended: `add_tool_to_config` raises `IOError` both when the config
file is unreadable and when YAML parsing fails (there is no separate
`ConfigParseError`); a document parsing to a truthy non-mapping value
raises an uncaught `TypeError`, while a falsy one is tolerated and
replaced by `{extensions: {}}`; and every failure outcome is confined to
{ValidationError, IOError, TypeError}. -/
theorem c2_error_outcomes (dp : PyPath) (wf : Bool) (name : PyStr) :
    (∀ rd e, (add_tool_to_config dp rd wf name).1 = Except.error e →
      (e = PyErr.validationError ∨ e = PyErr.ioError ∨ e = PyErr.typeError)) ∧
    (validate_tool_name name = Except.ok true →
      (add_tool_to_config dp .ioError wf name).1 = Except.error PyErr.ioError ∧
      (add_tool_to_config dp .yamlError wf name).1 = Except.error PyErr.ioError ∧
      (∀ s, s ≠ [] →
        (add_tool_to_config dp (.doc (some (Yaml.str s))) wf name).1 =
          Except.error PyErr.typeError) ∧
      (add_tool_to_config dp (.doc (some (Yaml.bool false))) false name).1 =
        Except.ok ()) := by
  constructor
  · intro rd e h
    rcases hv : validate_tool_name name with e' | b
    · have he' := validate_tool_name_error hv
      subst he'
      simp [add_tool_to_config, hv] at h
      exact Or.inl h.symm
    · rcases rd with _ | _ | d
      · simp [add_tool_to_config, hv] at h
        exact Or.inr (Or.inl h.symm)
      · simp [add_tool_to_config, hv] at h
        exact Or.inr (Or.inl h.symm)
      · simp only [add_tool_to_config, hv] at h
        split at h
        · split at h
          · split at h
            · simp at h
              exact Or.inr (Or.inl h.symm)
            · simp at h
          · simp at h
            exact Or.inr (Or.inr h.symm)
        · simp at h
          exact Or.inr (Or.inr h.symm)
  · intro hv
    refine ⟨?_, ?_, ?_, ?_⟩
    · unfold add_tool_to_config
      rw [hv]
    · unfold add_tool_to_config
      rw [hv]
    · intro s hs
      have ht : truthy (some (Yaml.str s)) = true := by
        simp [truthy, List.isEmpty_iff, hs]
      simp [add_tool_to_config, hv, ht]
    · simp [add_tool_to_config, hv, truthy, alookup, aset]

theorem c2_error_outcomes_witness :
    (add_tool_to_config examplePath .yamlError false (strOf "a")).1 =
      Except.error PyErr.ioError :=
  ((c2_error_outcomes examplePath false (strOf "a")).2 (by decide)).2.1
